import Mathlib

/-! Verification of the islandflow options-ingest pipelines
(`src/services/ingest-options/py/databento_replay.py` and
`src/services/ingest-options/py/ibkr_stream.py`): a shallow embedding of the
normalization, symbol-resolution, buffering and dedup logic, plus theorems
checking the specification's claims against it.

Embedding conventions: Python integers are `Int` (exact arithmetic), floats
carried in record fields are `ℚ`, strings are `String`.  A calendar date is its
day count since the Unix epoch; a timezone-naive date-time is a day count plus
milliseconds within the day.  Python's `datetime.timestamp()` interprets naive
date-times in the process-local timezone, so the local UTC offset (in
milliseconds, positive east of Greenwich) is threaded through as an explicit
`localOffMs` parameter; with `TZ=UTC` it is `0`.  The databento client,
`InstrumentMap` and the symbology service are external collaborators and are
modelled by an `Oracle` function giving the symbol the service would return for
an (instrument id, date) pair, `none` when it resolves nothing. -/

/-- Values found in the symbol-like record attributes the code probes
(`symbol`, `raw_symbol`, `instrument_id`, `exchange`, `publisher_id`,
`exchange_id`): Python strings or ints. -/
inductive SymVal where
  | s (str : String)
  | i (n : Int)
deriving DecidableEq

/-- Python truthiness of an optional symbol-like value: `None`, `""` and `0`
are falsy. -/
def symTruthy : Option SymVal → Bool
  | none => false
  | some (.s str) => str != ""
  | some (.i n) => n != 0

/-- Python `a or b` on symbol-like values: `a` when truthy, else `b`. -/
def pyOr (a b : Option SymVal) : Option SymVal :=
  if symTruthy a then a else b

/-- The source's `stringify` on the embedded value kinds (`str(value)`). -/
def stringify : SymVal → String
  | .s str => str
  | .i n => toString n

/-- The source's `is_numeric_symbol`: ints are numeric, strings are numeric
when nonempty and all digits (Python's `"".isdigit()` is `False`),
anything else is not. -/
def is_numeric_symbol : Option SymVal → Bool
  | some (.i _) => true
  | some (.s str) => str.length != 0 && str.all Char.isDigit
  | none => false

/-- Python `int(symbol)` for a value satisfying `is_numeric_symbol`. -/
def symToInt : Option SymVal → Int
  | some (.i n) => n
  | some (.s str) => ((str.toNat?).getD 0 : Nat)
  | none => 0

/-- Condition-like attribute values: a bare string or a list of strings. -/
inductive CondVal where
  | cs (s : String)
  | cl (l : List String)
deriving DecidableEq

/-- Python truthiness of an optional condition value. -/
def condTruthy : Option CondVal → Bool
  | none => false
  | some (.cs s) => s != ""
  | some (.cl l) => !l.isEmpty

/-- Python `a or b` on condition values. -/
def pyOrCond (a b : Option CondVal) : Option CondVal :=
  if condTruthy a then a else b

/-- Python truthiness of an optional string (used for `symbol_override`). -/
def strTruthy : Option String → Bool
  | none => false
  | some s => s != ""

/-- Timestamp-like values reaching `normalize_ts`: a timezone-naive
`datetime` (day count since epoch plus milliseconds within the day), a
calendar `date` (day count since epoch), a number, or an unparseable value
(e.g. a string), which falls through every `isinstance` check. -/
inductive TsValue where
  | dtime (days msOfDay : Int)
  | date (days : Int)
  | num (v : Int)
  | strv (s : String)
deriving DecidableEq

/-- The source's `normalize_ts`.  `None` stays `None`; a naive datetime goes
through `ts_value.timestamp() * 1000`, which interprets it in the local
timezone (epoch ms of its UTC reading minus `localOffMs`); a date is combined
with midnight and treated the same way; a number strictly above `10^15` is
nanoseconds and is divided by `10^6`, otherwise it is already milliseconds;
anything else is unrepresentable. -/
def normalize_ts (localOffMs : Int) : Option TsValue → Option Int
  | none => none
  | some (.dtime days ms) => some (days * 86400000 + ms - localOffMs)
  | some (.date days) => some (days * 86400000 - localOffMs)
  | some (.num v) => if 1000000000000000 < v then some (v / 1000000) else some v
  | some (.strv _) => none

/-- JSON values appearing in emitted payload objects. -/
inductive Jval where
  | vnull
  | vint (n : Int)
  | vnum (q : ℚ)
  | vstr (s : String)
  | vlist (l : List String)
deriving DecidableEq

/-- An emitted JSON object: the key/value pairs in insertion order. -/
abbrev Payload := List (String × Jval)

/-- Field lookup in an emitted object (first binding of the key). -/
def getField : Payload → String → Option Jval
  | [], _ => none
  | (key, v) :: rest, k => if key = k then some v else getField rest k

/-- A provider record viewed through the optional attributes the code probes
with `getattr(record, ..., None)`. -/
structure RawRecord where
  ts_event : Option TsValue := none
  price : Option ℚ := none
  size : Option Int := none
  symbol : Option SymVal := none
  raw_symbol : Option SymVal := none
  instrument_id : Option SymVal := none
  exchange : Option SymVal := none
  publisher_id : Option SymVal := none
  exchange_id : Option SymVal := none
  conditions : Option CondVal := none
  condition : Option CondVal := none
deriving DecidableEq

/-- The source's `build_payload`: extract `ts_event`, `price`, `size` and the
symbol (the override when truthy, else `symbol or raw_symbol or
instrument_id`); return `None` when any of the four is `None` or the
timestamp is unrepresentable; otherwise build the dict, adding `exchange`
when the `exchange or publisher_id or exchange_id` chain is not `None` and
`conditions` when the wrapped conditions value is truthy. -/
def build_payload (off : Int) (rec : RawRecord) (symbol_override : Option String) :
    Option Payload :=
  let symbol : Option SymVal :=
    if strTruthy symbol_override then symbol_override.map SymVal.s
    else pyOr rec.symbol (pyOr rec.raw_symbol rec.instrument_id)
  match rec.ts_event with
  | none => none
  | some tsv =>
    match rec.price with
    | none => none
    | some price =>
      match rec.size with
      | none => none
      | some size =>
        match symbol with
        | none => none
        | some sym =>
          match normalize_ts off (some tsv) with
          | none => none
          | some ts_ms =>
            let exch := pyOr rec.exchange (pyOr rec.publisher_id rec.exchange_id)
            let conds := pyOrCond rec.conditions rec.condition
            let condsW : Option CondVal :=
              match conds with
              | some (.cs s) => some (.cl [s])
              | x => x
            let base : Payload :=
              [("ts", .vint ts_ms), ("price", .vnum price), ("size", .vint size),
               ("symbol", .vstr (stringify sym))]
            let withEx : Payload :=
              match exch with
              | some e => base ++ [("exchange", .vstr (stringify e))]
              | none => base
            some (match condsW with
              | some (.cl l) =>
                if l.isEmpty then withEx else withEx ++ [("conditions", .vlist l)]
              | _ => withEx)

/-- The `emit_payload` effect: the line(s) actually written for an optional
payload (none when `build_payload` returned `None`). -/
def emitOpt : Option Payload → List Payload
  | some p => [p]
  | none => []

/-- The mutable state of `SymbolResolver`: the pending id list, its
membership set, and the `InstrumentMap` contents as a map from
(instrument id, date in epoch days) to the resolved symbol. -/
structure Resolver where
  pending : List Int
  pendingSet : Finset Int
  rmap : Int → Int → Option String

/-- The external symbology service combined with `InstrumentMap.insert_json`:
what resolving an instrument id at a date would yield (`none` when the
service has no mapping there).  The date window the resolver passes is part
of this collaborator model. -/
abbrev Oracle := Int → Int → Option String

/-- The source's `SymbolResolver.queue`: no-op when the id is already in the
membership set, else add it to both the set and the list. -/
def Resolver.queue (r : Resolver) (instrument_id : Int) : Resolver :=
  if instrument_id ∈ r.pendingSet then r
  else { r with pendingSet := insert instrument_id r.pendingSet,
                pending := r.pending ++ [instrument_id] }

/-- The slices `pending[i : i + 2000]` for `i in range(0, len(pending), 2000)`. -/
def chunksOf (l : List Int) : List (List Int) :=
  if l = [] then [] else l.take 2000 :: chunksOf (l.drop 2000)
termination_by l.length
decreasing_by
  rename_i h
  have : 0 < l.length := List.length_pos.mpr h
  simp [List.length_drop]
  omega

/-- The outbound id batches a `resolve_pending` call submits to the service. -/
def Resolver.resolveRequests (r : Resolver) : List (List Int) :=
  chunksOf r.pending

/-- `InstrumentMap.insert_json` of one batch response: ids of the chunk the
service resolved get the service's symbol, everything else keeps its old
mapping. -/
def insertChunk (oracle : Oracle) (chunk : List Int) (m : Int → Int → Option String) :
    Int → Int → Option String :=
  fun i d =>
    if i ∈ chunk then
      match oracle i d with
      | some sym => some sym
      | none => m i d
    else m i d

/-- The source's `SymbolResolver.resolve_pending`: early return when nothing
is pending; otherwise take the pending list, clear the list and the set, and
submit it in slices of 2000, merging each response into the map. -/
def Resolver.resolve_pending (oracle : Oracle) (r : Resolver) : Resolver :=
  if r.pending = [] then r
  else
    { pending := [], pendingSet := ∅,
      rmap := (chunksOf r.pending).foldl (fun m c => insertChunk oracle c m) r.rmap }

/-- The source's `SymbolResolver.lookup` (the `instrument_id is None` guard
never fires in the embedded call sites, where the id is an `Int`). -/
def Resolver.lookup (r : Resolver) (instrument_id date : Int) : Option String :=
  r.rmap instrument_id date

/-- The `mapped = resolver.lookup(...); if mapped:` pattern: a lookup result
counted only when truthy (non-`None` and nonempty). -/
def lookupTruthy (r : Resolver) (instrument_id date : Int) : Option String :=
  match r.lookup instrument_id date with
  | some s => if s = "" then none else some s
  | none => none

/-- The source's `SymbolResolver.pending_count`. -/
def Resolver.pending_count (r : Resolver) : Nat :=
  r.pending.length

/-- The replay pipeline's mutable state: the resolver, the `buffered` list of
(record, instrument id, date) tuples, everything emitted so far, and an
instrumentation counter of `flush_buffer` invocations. -/
structure ReplayState where
  resolver : Resolver
  buffered : List (RawRecord × Int × Int)
  emitted : List Payload
  flushes : Nat

/-- One pass of `flush_buffer`'s loop over the buffered entries after
`resolve_pending` ran: resolvable entries are emitted with the mapped symbol,
unresolvable ones are emitted with `str(instrument_id)` under `force` and kept
otherwise.  Returns (remaining buffer, lines emitted), both in input order. -/
def flushScan (off : Int) (force : Bool) (r : Resolver) :
    List (RawRecord × Int × Int) → List (RawRecord × Int × Int) × List Payload
  | [] => ([], [])
  | e :: rest =>
    let res := flushScan off force r rest
    match lookupTruthy r e.2.1 e.2.2 with
    | some mapped => (res.1, emitOpt (build_payload off e.1 (some mapped)) ++ res.2)
    | none =>
      if force then (res.1, emitOpt (build_payload off e.1 (some (toString e.2.1))) ++ res.2)
      else (e :: res.1, res.2)

/-- The source's `flush_buffer` closure (counting each invocation): early
return when the buffer is empty, else `resolve_pending` followed by the scan,
with `buffered[:] = remaining`. -/
def flush_buffer (oracle : Oracle) (off : Int) (force : Bool) (st : ReplayState) :
    ReplayState :=
  if st.buffered.isEmpty then { st with flushes := st.flushes + 1 }
  else
    let r := st.resolver.resolve_pending oracle
    let res := flushScan off force r st.buffered
    { resolver := r, buffered := res.1, emitted := st.emitted ++ res.2,
      flushes := st.flushes + 1 }

/-- The source's `handle_record` closure: probe the symbol chain, normalize
the timestamp (silently dropping the record when unrepresentable), derive the
trade date with `utcfromtimestamp(ts_ms / 1000).date()`; numeric symbols are
emitted directly when already cached, else queued and buffered with a flush
once `pending_count() >= 200`; non-numeric symbols are emitted directly. -/
def handle_record (oracle : Oracle) (off : Int) (st : ReplayState) (rec : RawRecord) :
    ReplayState :=
  let symbol := pyOr rec.symbol (pyOr rec.raw_symbol rec.instrument_id)
  match normalize_ts off rec.ts_event with
  | none => st
  | some ts_ms =>
    let date := ts_ms / 1000 / 86400
    if is_numeric_symbol symbol then
      let instrument_id := symToInt symbol
      match lookupTruthy st.resolver instrument_id date with
      | some mapped =>
        { st with emitted := st.emitted ++ emitOpt (build_payload off rec (some mapped)) }
      | none =>
        let st1 : ReplayState :=
          { st with resolver := st.resolver.queue instrument_id,
                    buffered := st.buffered ++ [(rec, instrument_id, date)] }
        if 200 ≤ st1.resolver.pending_count then flush_buffer oracle off false st1 else st1
    else
      { st with emitted := st.emitted ++ emitOpt (build_payload off rec none) }

/-- A fresh `SymbolResolver` (empty pending list and set, empty map). -/
def initResolver : Resolver :=
  { pending := [], pendingSet := ∅, rmap := fun _ _ => none }

/-- The replay pipeline's state at the start of `main`'s consumption loop. -/
def initReplay : ReplayState :=
  { resolver := initResolver, buffered := [], emitted := [], flushes := 0 }

/-- The callback-replay consumption path: `data.replay(callback=handle_record)`
invokes `handle_record` once per record, with no other per-record logic. -/
def callbackDrive (oracle : Oracle) (off : Int) (st : ReplayState)
    (recs : List RawRecord) : ReplayState :=
  recs.foldl (handle_record oracle off) st

/-- The whole callback path of `main`: drive every record, then the
unconditional `flush_buffer(force=True)`. -/
def replayCallback (oracle : Oracle) (off : Int) (recs : List RawRecord) : ReplayState :=
  flush_buffer oracle off true (callbackDrive oracle off initReplay recs)

/-- One iteration of the iterator consumption path: `handle_record(record)`
followed by `if len(buffered) >= 2000: flush_buffer()`. -/
def iterStep (oracle : Oracle) (off : Int) (st : ReplayState) (rec : RawRecord) :
    ReplayState :=
  let st1 := handle_record oracle off st rec
  if 2000 ≤ st1.buffered.length then flush_buffer oracle off false st1 else st1

/-- The iterator consumption path over a finite record sequence. -/
def iterDrive (oracle : Oracle) (off : Int) (st : ReplayState)
    (recs : List RawRecord) : ReplayState :=
  recs.foldl (iterStep oracle off) st

/-- The whole iterator path of `main`: the loop, then the unconditional
`flush_buffer(force=True)`. -/
def replayIter (oracle : Oracle) (off : Int) (recs : List RawRecord) : ReplayState :=
  flush_buffer oracle off true (iterDrive oracle off initReplay recs)

/-- A live ticker update as `on_update` reads it.  `time` is the epoch ms of
the tick's time field (the handler forces naive values to UTC with
`ts.replace(tzinfo=timezone.utc)`, so the UTC reading is the value that
matters), `none` when the field is `None`.  `lastExchange` is `none` when the
attribute is absent; `exchange` is the ticker's exchange attribute. -/
structure Tick where
  time : Option Int := none
  last : Option ℚ := none
  lastSize : Option Int := none
  lastExchange : Option String := none
  exchange : Option String := none
deriving DecidableEq

/-- The live pipeline's state: the retained dedup key and the emitted lines. -/
structure LiveState where
  lastKey : Option (Int × ℚ × Int)
  emitted : List Payload
deriving DecidableEq

/-- The live pipeline's state before the first update. -/
def initLive : LiveState :=
  { lastKey := none, emitted := [] }

/-- Python `x or "IBKR"` on the ticker's exchange attribute. -/
def pyStrOr (a : Option String) (b : String) : String :=
  match a with
  | some s => if s = "" then b else s
  | none => b

/-- The exchange chain of `on_update`: `lastExchange` when the attribute
exists and is truthy, else `ticker.exchange or "IBKR"`. -/
def liveExchange (t : Tick) : String :=
  match t.lastExchange with
  | some e => if e = "" then pyStrOr t.exchange "IBKR" else e
  | none => pyStrOr t.exchange "IBKR"

/-- The source's `on_update` closure: drop the tick when `last` or `lastSize`
is `None`; take the tick's time (falling back to the current wall clock `now`
when it is `None`); drop when the (ts, price, size) key equals the retained
key; otherwise retain the key and emit the payload. -/
def on_update (now : Int) (st : LiveState) (t : Tick) : LiveState :=
  match t.last, t.lastSize with
  | some price, some size =>
    let ts_ms := match t.time with | none => now | some m => m
    let key : Int × ℚ × Int := (ts_ms, price, size)
    if st.lastKey = some key then st
    else
      { lastKey := some key,
        emitted := st.emitted ++
          [[("ts", .vint ts_ms), ("price", .vnum price), ("size", .vint size),
            ("exchange", .vstr (liveExchange t))]] }
  | _, _ => st

/-! Helper lemmas shared by the claim theorems. -/

theorem toDigitsCore_len_ge (b : Nat) :
    ∀ (fuel n : Nat) (ds : List Char), ds.length ≤ (Nat.toDigitsCore b fuel n ds).length := by
  intro fuel
  induction fuel with
  | zero => intro n ds; rw [Nat.toDigitsCore]
  | succ f ih =>
    intro n ds
    rw [Nat.toDigitsCore]
    split
    · simp
    · calc ds.length ≤ (ds.length + 1) := by omega
        _ = ((n % b).digitChar :: ds).length := by simp
        _ ≤ _ := ih _ _

theorem natRepr_ne_nil (n : Nat) : Nat.repr n ≠ "" := by
  rw [Nat.repr]
  intro h
  have h2 : (Nat.toDigits 10 n) = [] := by
    have := congrArg String.data h
    simpa [List.asString] using this
  rw [Nat.toDigits, Nat.toDigitsCore] at h2
  split at h2
  · simp at h2
  · have := toDigitsCore_len_ge 10 n (n / 10) [(n % 10).digitChar]
    rw [h2] at this
    simp at this

/-- Python's `str(i)` of an integer is never the empty string. -/
theorem intToString_ne (i : Int) : toString i ≠ "" := by
  show Int.repr i ≠ ""
  cases i with
  | ofNat m => exact natRepr_ne_nil m
  | negSucc m =>
    rw [Int.repr]
    intro h
    have := congrArg String.data h
    simp [String.append] at this

theorem chunksOf_flatten (l : List Int) : (chunksOf l).flatten = l := by
  induction l using chunksOf.induct with
  | case1 => rw [chunksOf]; simp
  | case2 l h ih =>
    rw [chunksOf, if_neg h]
    simp [ih]

theorem chunksOf_mem_length (l : List Int) : ∀ c ∈ chunksOf l, c.length ≤ 2000 := by
  induction l using chunksOf.induct with
  | case1 => rw [chunksOf]; simp
  | case2 l h ih =>
    rw [chunksOf, if_neg h]
    intro c hc
    rcases List.mem_cons.mp hc with h1 | h2
    · subst h1; simp
    · exact ih c h2

/-- The resolver invariant the code maintains: the membership set holds
exactly the ids of the pending list, and the pending list has no duplicates. -/
def Resolver.WF (r : Resolver) : Prop :=
  r.pendingSet = r.pending.toFinset ∧ r.pending.Nodup

theorem resolve_pending_pending (oracle : Oracle) (r : Resolver) :
    (r.resolve_pending oracle).pending = [] := by
  rw [Resolver.resolve_pending]
  split
  · assumption
  · rfl

theorem queue_pending_count_le (r : Resolver) (id : Int) :
    (r.queue id).pending_count ≤ r.pending_count + 1 := by
  rw [Resolver.queue]
  split
  · simp [Resolver.pending_count]
  · simp [Resolver.pending_count]

theorem flush_buffer_flushes (oracle : Oracle) (off : Int) (force : Bool) (st : ReplayState) :
    (flush_buffer oracle off force st).flushes = st.flushes + 1 := by
  rw [flush_buffer]
  split
  · rfl
  · rfl

theorem flush_buffer_pending (oracle : Oracle) (off : Int) (force : Bool) (st : ReplayState)
    (h : ¬ st.buffered.isEmpty) :
    (flush_buffer oracle off force st).resolver.pending = [] := by
  rw [flush_buffer, if_neg h]
  exact resolve_pending_pending oracle st.resolver

/-- Field lookup distributes over appending payload fragments. -/
theorem getField_append (l1 l2 : Payload) (k : String) :
    getField (l1 ++ l2) k =
      match getField l1 k with
      | some v => some v
      | none => getField l2 k := by
  induction l1 with
  | nil => simp [getField]
  | cons hd tl ih =>
    obtain ⟨key, v⟩ := hd
    by_cases hk : key = k
    · simp [getField, hk]
    · simp [getField, hk, ih]

/-! Claim C2 — numeric timestamp normalization. -/

/-- C2: for every integer timestamp input `V` to `normalize_ts`, a value
strictly above `10^15` is classified as nanoseconds and the result is
`V / 1_000_000` in integer milliseconds, and a value at most `10^15` is
returned unchanged as milliseconds, independently of the environment's
local-timezone offset. -/
theorem C2_normalize_numeric (off v : Int) :
    (1000000000000000 < v →
      normalize_ts off (some (.num v)) = some (v / 1000000)) ∧
    (v ≤ 1000000000000000 →
      normalize_ts off (some (.num v)) = some v) := by
  constructor
  · intro h
    simp [normalize_ts, h]
  · intro h
    have h2 : ¬ (1000000000000000 < v) := by omega
    simp [normalize_ts, h2]

/-- Witness for C2 at a nanosecond-range and a millisecond-range input. -/
theorem C2_witness :
    ((1000000000000000 : Int) < 1700000000000000000 ∧
      normalize_ts 0 (some (.num 1700000000000000000)) = some 1700000000000) ∧
    ((1700000000000 : Int) ≤ 1000000000000000 ∧
      normalize_ts 0 (some (.num 1700000000000)) = some 1700000000000) := by
  constructor
  · refine ⟨by norm_num, ?_⟩
    have := (C2_normalize_numeric 0 1700000000000000000).1 (by norm_num)
    simpa using this
  · exact ⟨by norm_num, (C2_normalize_numeric 0 1700000000000).2 (by norm_num)⟩

/-! Claim C6 — dedup on enqueue. -/

/-- C6: queueing an already-pending instrument id is a no-op, `queue` and
`resolve_pending` preserve the at-most-once invariant (set matches list,
list duplicate-free), and queueing the same id twice into a fresh resolver
leaves `pending_count` at 1. -/
theorem C6_queue_dedup :
    (∀ (r : Resolver) (id : Int), id ∈ r.pendingSet → r.queue id = r) ∧
    (∀ (r : Resolver) (id : Int), r.WF → (r.queue id).WF) ∧
    (∀ (oracle : Oracle) (r : Resolver), r.WF → (r.resolve_pending oracle).WF) ∧
    (∀ id : Int, ((initResolver.queue id).queue id).pending_count = 1) := by
  refine ⟨?_, ?_, ?_, ?_⟩
  · intro r id h
    rw [Resolver.queue, if_pos h]
  · intro r id h
    obtain ⟨hset, hnd⟩ := h
    rw [Resolver.queue]
    split
    · exact ⟨hset, hnd⟩
    · rename_i hmem
      constructor
      · simp [hset, List.toFinset_append]
        ext x
        simp [Or.comm]
      · have hid : id ∉ r.pending := by
          intro hc
          exact hmem (hset ▸ List.mem_toFinset.mpr hc)
        simp [List.nodup_append, hnd, hid]
  · intro oracle r h
    obtain ⟨hset, hnd⟩ := h
    rw [Resolver.resolve_pending]
    split
    · exact ⟨hset, hnd⟩
    · exact ⟨by simp, by simp⟩
  · intro id
    have h1 : initResolver.queue id =
        { pending := [id], pendingSet := {id}, rmap := fun _ _ => none } := by
      rw [initResolver, Resolver.queue]
      simp
    rw [h1, Resolver.queue]
    simp [Resolver.pending_count]

/-- Witness for C6: a concrete no-op re-queue and a concrete double queue. -/
theorem C6_witness :
    (initResolver.queue 7).queue 7 = initResolver.queue 7 ∧
    ((initResolver.queue 42).queue 42).pending_count = 1 := by
  constructor
  · refine C6_queue_dedup.1 (initResolver.queue 7) 7 ?_
    rw [initResolver, Resolver.queue]
    simp
  · exact C6_queue_dedup.2.2.2 42

/-! Claim C3 — batched resolution and queue clearing. -/

/-- C3: a `resolve_pending` call submits the pending ids in outbound requests
of at most 2000 ids each regardless of the queue size, the requests cover the
whole pending queue (nothing is lost), and afterwards both the pending list
and the membership set are empty, so later enqueues start a fresh batch. -/
theorem C3_resolve_pending_batches (oracle : Oracle) (r : Resolver) (h : r.WF) :
    (∀ req ∈ r.resolveRequests, req.length ≤ 2000) ∧
    r.resolveRequests.flatten = r.pending ∧
    (r.resolve_pending oracle).pending = [] ∧
    (r.resolve_pending oracle).pendingSet = ∅ := by
  refine ⟨chunksOf_mem_length r.pending, chunksOf_flatten r.pending,
    resolve_pending_pending oracle r, ?_⟩
  rw [Resolver.resolve_pending]
  split
  · rename_i hp
    rw [h.1, hp]
    simp
  · rfl

/-- Witness for C3 on a concrete three-id resolver. -/
theorem C3_witness :
    (∀ req ∈ (Resolver.mk [1, 2, 3] ([1, 2, 3] : List Int).toFinset
        (fun _ _ => none)).resolveRequests, req.length ≤ 2000) ∧
    (Resolver.mk [1, 2, 3] ([1, 2, 3] : List Int).toFinset
        (fun _ _ => none)).resolveRequests.flatten = [1, 2, 3] ∧
    ((Resolver.mk [1, 2, 3] ([1, 2, 3] : List Int).toFinset
        (fun _ _ => none)).resolve_pending (fun _ _ => none)).pending = [] ∧
    ((Resolver.mk [1, 2, 3] ([1, 2, 3] : List Int).toFinset
        (fun _ _ => none)).resolve_pending (fun _ _ => none)).pendingSet = ∅ :=
  C3_resolve_pending_batches (fun _ _ => none) _ ⟨rfl, by decide⟩

/-! Claim C9 — date and naive date-time normalization. -/

/-- C9 counterexample: in an environment whose local timezone is one hour
east of UTC (offset 3600000 ms), the naive date-time 1970-01-01T00:00:00 and
the calendar date 1970-01-01 both normalize to -3600000, not to the
midnight-UTC / UTC-instant value 0 the claim requires. -/
theorem C9_counterexample :
    normalize_ts 3600000 (some (.dtime 0 0)) = some (-3600000) ∧
    normalize_ts 3600000 (some (.date 0)) = some (-3600000) ∧
    (-3600000 : Int) ≠ 0 := by
  refine ⟨rfl, rfl, by decide⟩

/-- C9 amended: `normalize_ts` maps a calendar date to midnight of that date
and a naive date-time to its instant, both interpreted in the process-local
timezone (the UTC reading minus the local UTC offset, as Python's
`datetime.timestamp()` does); these equal the claimed midnight-UTC /
UTC-instant values exactly when the local offset is zero, i.e. when the
process runs under TZ=UTC. -/
theorem C9_amended_local_time :
    (∀ off days ms : Int,
      normalize_ts off (some (.dtime days ms)) = some (days * 86400000 + ms - off)) ∧
    (∀ off days : Int,
      normalize_ts off (some (.date days)) = some (days * 86400000 - off)) ∧
    (∀ days ms : Int,
      normalize_ts 0 (some (.dtime days ms)) = some (days * 86400000 + ms)) ∧
    (∀ days : Int, normalize_ts 0 (some (.date days)) = some (days * 86400000)) := by
  refine ⟨fun off days ms => rfl, fun off days => rfl, ?_, ?_⟩
  · intro days ms
    simp [normalize_ts]
  · intro days
    simp [normalize_ts]

/-! Claim C10 — the live payload's exchange field. -/

/-- Modelled from the claim's words: the exchange field is the ticker's
`lastExchange` when present and non-empty, else the ticker's `exchange` when
non-empty, else the literal string "IBKR". -/
def claimedExchange (t : Tick) : String :=
  match t.lastExchange with
  | some e =>
    if e ≠ "" then e
    else
      match t.exchange with
      | some x => if x ≠ "" then x else "IBKR"
      | none => "IBKR"
  | none =>
    match t.exchange with
    | some x => if x ≠ "" then x else "IBKR"
    | none => "IBKR"

theorem liveExchange_eq_claimed (t : Tick) : liveExchange t = claimedExchange t := by
  rw [liveExchange, claimedExchange]
  cases t.lastExchange with
  | none =>
    cases t.exchange with
    | none => rfl
    | some x =>
      by_cases hx : x = "" <;> simp [pyStrOr, hx]
  | some e =>
    by_cases he : e = ""
    · cases t.exchange with
      | none => simp [pyStrOr, he]
      | some x =>
        by_cases hx : x = "" <;> simp [pyStrOr, he, hx]
    · simp [he]

/-- C10: every update the live pipeline accepts emits exactly one payload, and
that payload carries an `exchange` field equal to the claimed precedence chain
(`lastExchange` if present and non-empty, else `exchange` if non-empty, else
"IBKR"); an update that emits nothing leaves the output untouched, so the
field is never omitted from a live payload. -/
theorem C10_live_exchange (now : Int) (st : LiveState) (t : Tick) :
    (on_update now st t).emitted = st.emitted ∨
    ∃ p, (on_update now st t).emitted = st.emitted ++ [p] ∧
      getField p "exchange" = some (.vstr (claimedExchange t)) := by
  rw [on_update]
  cases tl : t.last with
  | none => exact Or.inl rfl
  | some price =>
    cases ts : t.lastSize with
    | none => exact Or.inl rfl
    | some size =>
      dsimp only
      by_cases hk :
          st.lastKey = some ((match t.time with | none => now | some m => m), price, size)
      · rw [if_pos hk]
        exact Or.inl rfl
      · rw [if_neg hk]
        refine Or.inr ⟨_, rfl, ?_⟩
        rw [liveExchange_eq_claimed]
        rfl

/-! Claim C7 — live dedup against the immediately preceding accepted key. -/

/-- The DedupKey `(ts_ms, price, size)` of a tick as `on_update` computes it,
`none` when price or size is missing (the tick is discarded before the key
comparison). -/
def liveKey (now : Int) (t : Tick) : Option (Int × ℚ × Int) :=
  match t.last, t.lastSize with
  | some price, some size =>
    some ((match t.time with | none => now | some m => m), price, size)
  | _, _ => none

/-- The first and second ticks of the spec's dedup scenario: key (1000, 10.5, 5). -/
def tickA : Tick :=
  { time := some 1000, last := some 10.5, lastSize := some 5 }

/-- The third tick of the spec's dedup scenario: key (1001, 10.5, 5). -/
def tickB : Tick :=
  { time := some 1001, last := some 10.5, lastSize := some 5 }

/-- C7: a tick missing price or size is discarded with no state change; a tick
whose key equals the retained key is discarded with no emission and no state
change; a tick whose key differs is accepted, updates the retained key and
emits exactly one payload; and on the scenario keys (1000, 10.5, 5),
(1000, 10.5, 5), (1001, 10.5, 5) exactly two payloads are emitted. -/
theorem C7_live_dedup :
    (∀ (now : Int) (st : LiveState) (t : Tick),
      t.last = none ∨ t.lastSize = none → on_update now st t = st) ∧
    (∀ (now : Int) (st : LiveState) (t : Tick) (k : Int × ℚ × Int),
      liveKey now t = some k → st.lastKey = some k → on_update now st t = st) ∧
    (∀ (now : Int) (st : LiveState) (t : Tick) (k : Int × ℚ × Int),
      liveKey now t = some k → st.lastKey ≠ some k →
      (on_update now st t).lastKey = some k ∧
      (on_update now st t).emitted.length = st.emitted.length + 1) ∧
    (List.foldl (on_update 0) initLive [tickA, tickA, tickB]).emitted.length = 2 := by
  refine ⟨?_, ?_, ?_, ?_⟩
  · intro now st t h
    rw [on_update]
    cases tl : t.last with
    | none => rfl
    | some price =>
      cases ts : t.lastSize with
      | none => rfl
      | some size => rw [tl, ts] at h; simp at h
  · intro now st t k hk hst
    rw [liveKey] at hk
    rw [on_update]
    cases tl : t.last with
    | none => rfl
    | some price =>
      cases ts : t.lastSize with
      | none => rfl
      | some size =>
        rw [tl, ts] at hk
        simp only [Option.some.injEq] at hk
        dsimp only
        rw [hk, if_pos hst]
  · intro now st t k hk hst
    rw [liveKey] at hk
    rw [on_update]
    cases tl : t.last with
    | none => rw [tl] at hk; simp at hk
    | some price =>
      cases ts : t.lastSize with
      | none => rw [tl, ts] at hk; simp at hk
      | some size =>
        rw [tl, ts] at hk
        simp only [Option.some.injEq] at hk
        dsimp only
        rw [hk, if_neg hst]
        simp
  · have h1 : on_update 0 initLive tickA =
        { lastKey := some (1000, 10.5, 5),
          emitted := [[("ts", .vint 1000), ("price", .vnum 10.5), ("size", .vint 5),
            ("exchange", .vstr "IBKR")]] } := by
      simp [on_update, initLive, tickA, liveExchange, pyStrOr]
    have h2 : on_update 0
        ({ lastKey := some (1000, 10.5, 5),
           emitted := [[("ts", .vint 1000), ("price", .vnum 10.5), ("size", .vint 5),
             ("exchange", .vstr "IBKR")]] } : LiveState) tickA =
        { lastKey := some (1000, 10.5, 5),
          emitted := [[("ts", .vint 1000), ("price", .vnum 10.5), ("size", .vint 5),
            ("exchange", .vstr "IBKR")]] } := by
      simp [on_update, tickA]
    simp only [List.foldl, h1, h2]
    simp [on_update, tickB, liveExchange, pyStrOr]

/-- Witness for C7: concrete drops for a missing-size tick and a duplicate
tick, and a concrete accept for a fresh key. -/
theorem C7_witness :
    on_update 0 initLive { time := some 5, last := some 2 } = initLive ∧
    on_update 0 { lastKey := some (1000, 10.5, 5), emitted := [] } tickA =
      { lastKey := some (1000, 10.5, 5), emitted := [] } ∧
    (on_update 0 initLive tickB).lastKey = some (1001, 10.5, 5) ∧
    (on_update 0 initLive tickB).emitted.length = 1 := by
  refine ⟨?_, ?_, ?_, ?_⟩
  · exact C7_live_dedup.1 0 initLive _ (Or.inr rfl)
  · exact C7_live_dedup.2.1 0 _ tickA (1000, 10.5, 5) rfl rfl
  · exact (C7_live_dedup.2.2.1 0 initLive tickB (1001, 10.5, 5) rfl (by
      rw [initLive]; simp)).1
  · have := (C7_live_dedup.2.2.1 0 initLive tickB (1001, 10.5, 5) rfl (by
      rw [initLive]; simp)).2
    simpa [initLive] using this

/-! Claim C1 — required fields of emitted payloads. -/

/-- Every successful `build_payload` result starts with the four required
bindings `ts`, `price`, `size`, `symbol`, followed only by the optional
`exchange` / `conditions` bindings. -/
theorem build_payload_shape (off : Int) (rec : RawRecord) (ovr : Option String)
    (p : Payload) (h : build_payload off rec ovr = some p) :
    ∃ (ts sz : Int) (pr : ℚ) (sym : String) (tail : Payload),
      p = [("ts", Jval.vint ts), ("price", Jval.vnum pr), ("size", Jval.vint sz),
           ("symbol", Jval.vstr sym)] ++ tail := by
  cases hts : rec.ts_event with
  | none => rw [build_payload, hts] at h; simp at h
  | some tsv =>
    cases hpr : rec.price with
    | none => rw [build_payload, hts, hpr] at h; simp at h
    | some price =>
      cases hsz : rec.size with
      | none => rw [build_payload, hts, hpr, hsz] at h; simp at h
      | some size =>
        cases hsym : (if strTruthy ovr then ovr.map SymVal.s
            else pyOr rec.symbol (pyOr rec.raw_symbol rec.instrument_id)) with
        | none =>
          rw [build_payload, hts, hpr, hsz] at h
          dsimp only at h
          rw [hsym] at h
          simp at h
        | some sym =>
          cases hn : normalize_ts off (some tsv) with
          | none =>
            rw [build_payload, hts, hpr, hsz] at h
            dsimp only at h
            rw [hsym] at h
            dsimp only at h
            rw [hn] at h
            simp at h
          | some ts_ms =>
            rw [build_payload, hts, hpr, hsz] at h
            dsimp only at h
            rw [hsym] at h
            dsimp only at h
            rw [hn] at h
            dsimp only at h
            simp only [Option.some.injEq] at h
            subst h
            refine ⟨ts_ms, size, price, stringify sym,
              (match pyOr rec.exchange (pyOr rec.publisher_id rec.exchange_id) with
               | some e => [("exchange", Jval.vstr (stringify e))]
               | none => []) ++
              (match (match pyOrCond rec.conditions rec.condition with
                      | some (CondVal.cs s) => some (CondVal.cl [s])
                      | x => x) with
               | some (CondVal.cl l) => if l.isEmpty then [] else [("conditions", Jval.vlist l)]
               | _ => []), ?_⟩
            cases hex : pyOr rec.exchange (pyOr rec.publisher_id rec.exchange_id) with
            | none =>
              cases hcw : (match pyOrCond rec.conditions rec.condition with
                  | some (CondVal.cs s) => some (CondVal.cl [s])
                  | x => x) with
              | none => simp [hex, hcw]
              | some cv =>
                cases cv with
                | cs s => simp [hex, hcw]
                | cl l => by_cases hl : l.isEmpty <;> simp [hex, hcw, hl]
            | some e =>
              cases hcw : (match pyOrCond rec.conditions rec.condition with
                  | some (CondVal.cs s) => some (CondVal.cl [s])
                  | x => x) with
              | none => simp [hex, hcw]
              | some cv =>
                cases cv with
                | cs s => simp [hex, hcw]
                | cl l => by_cases hl : l.isEmpty <;> simp [hex, hcw, hl]

/-- The live tick showing claim C1 fails on the live path: price and size
present, a fresh key, a concrete exchange. -/
def tickC1 : Tick :=
  { time := some 1000, last := some 10.5, lastSize := some 5, exchange := some "CBOE" }

/-- C1 counterexample: the live pipeline emits a payload for `tickC1` whose
JSON object carries `ts`, `price`, `size` and `exchange` but no `symbol`
binding at all, refuting the claim that every payload emitted by either
pipeline has a non-null `symbol` field. -/
theorem C1_counterexample :
    (on_update 0 initLive tickC1).emitted =
      [[("ts", Jval.vint 1000), ("price", Jval.vnum 10.5), ("size", Jval.vint 5),
        ("exchange", Jval.vstr "CBOE")]] ∧
    getField [("ts", Jval.vint 1000), ("price", Jval.vnum 10.5), ("size", Jval.vint 5),
      ("exchange", Jval.vstr "CBOE")] "symbol" = none := by
  constructor
  · simp [on_update, initLive, tickC1, liveExchange, pyStrOr]
  · simp [getField]

/-- C1 amended: every payload the replay pipeline's `build_payload` emits has
`ts`, `price`, `size` and `symbol` present and non-null; every payload the
live pipeline emits has `ts`, `price` and `size` present and non-null but
contains no `symbol` field at all. -/
theorem C1_amended_payload_fields :
    (∀ (off : Int) (rec : RawRecord) (ovr : Option String) (p : Payload),
      build_payload off rec ovr = some p →
      (∃ v, getField p "ts" = some v ∧ v ≠ .vnull) ∧
      (∃ v, getField p "price" = some v ∧ v ≠ .vnull) ∧
      (∃ v, getField p "size" = some v ∧ v ≠ .vnull) ∧
      (∃ v, getField p "symbol" = some v ∧ v ≠ .vnull)) ∧
    (∀ (now : Int) (st : LiveState) (t : Tick) (p : Payload),
      (on_update now st t).emitted = st.emitted ++ [p] →
      (∃ v, getField p "ts" = some v ∧ v ≠ .vnull) ∧
      (∃ v, getField p "price" = some v ∧ v ≠ .vnull) ∧
      (∃ v, getField p "size" = some v ∧ v ≠ .vnull) ∧
      getField p "symbol" = none) := by
  constructor
  · intro off rec ovr p h
    obtain ⟨ts, sz, pr, sym, tail, hp⟩ := build_payload_shape off rec ovr p h
    subst hp
    refine ⟨⟨.vint ts, ?_, by simp⟩, ⟨.vnum pr, ?_, by simp⟩,
      ⟨.vint sz, ?_, by simp⟩, ⟨.vstr sym, ?_, by simp⟩⟩ <;>
      simp [getField]
  · intro now st t p h
    rw [on_update] at h
    cases tl : t.last with
    | none =>
      rw [tl] at h
      dsimp only at h
      have := congrArg List.length h
      simp at this
    | some price =>
      cases ts : t.lastSize with
      | none =>
        rw [tl, ts] at h
        dsimp only at h
        have := congrArg List.length h
        simp at this
      | some size =>
        rw [tl, ts] at h
        dsimp only at h
        by_cases hk :
            st.lastKey = some ((match t.time with | none => now | some m => m), price, size)
        · rw [if_pos hk] at h
          have := congrArg List.length h
          simp at this
        · rw [if_neg hk] at h
          dsimp only at h
          have hp := List.append_cancel_left h
          simp only [List.cons.injEq, and_true] at hp
          have hp2 : p = [("ts", Jval.vint (match t.time with | none => now | some m => m)),
              ("price", Jval.vnum price), ("size", Jval.vint size),
              ("exchange", Jval.vstr (liveExchange t))] := by
            exact hp.symm
          subst hp2
          refine ⟨⟨Jval.vint (match t.time with | none => now | some m => m), ?_, by simp⟩,
            ⟨Jval.vnum price, ?_, by simp⟩, ⟨Jval.vint size, ?_, by simp⟩, ?_⟩ <;>
            simp [getField]

/-- A replay record with all four required attributes, for the C1 witness. -/
def recC1 : RawRecord :=
  { ts_event := some (.num 1000), price := some 1, size := some 2,
    symbol := some (.s "SPY") }

/-- Witness for C1 on a concrete replay record and a concrete live tick. -/
theorem C1_witness :
    ((∃ v, getField [("ts", Jval.vint 1000), ("price", Jval.vnum 1), ("size", Jval.vint 2),
        ("symbol", Jval.vstr "SPY")] "ts" = some v ∧ v ≠ .vnull) ∧
      (∃ v, getField [("ts", Jval.vint 1000), ("price", Jval.vnum 1), ("size", Jval.vint 2),
        ("symbol", Jval.vstr "SPY")] "price" = some v ∧ v ≠ .vnull) ∧
      (∃ v, getField [("ts", Jval.vint 1000), ("price", Jval.vnum 1), ("size", Jval.vint 2),
        ("symbol", Jval.vstr "SPY")] "size" = some v ∧ v ≠ .vnull) ∧
      (∃ v, getField [("ts", Jval.vint 1000), ("price", Jval.vnum 1), ("size", Jval.vint 2),
        ("symbol", Jval.vstr "SPY")] "symbol" = some v ∧ v ≠ .vnull)) ∧
    ((∃ v, getField [("ts", Jval.vint 1000), ("price", Jval.vnum 10.5), ("size", Jval.vint 5),
        ("exchange", Jval.vstr "CBOE")] "ts" = some v ∧ v ≠ .vnull) ∧
      (∃ v, getField [("ts", Jval.vint 1000), ("price", Jval.vnum 10.5), ("size", Jval.vint 5),
        ("exchange", Jval.vstr "CBOE")] "price" = some v ∧ v ≠ .vnull) ∧
      (∃ v, getField [("ts", Jval.vint 1000), ("price", Jval.vnum 10.5), ("size", Jval.vint 5),
        ("exchange", Jval.vstr "CBOE")] "size" = some v ∧ v ≠ .vnull) ∧
      getField [("ts", Jval.vint 1000), ("price", Jval.vnum 10.5), ("size", Jval.vint 5),
        ("exchange", Jval.vstr "CBOE")] "symbol" = none) :=
  ⟨C1_amended_payload_fields.1 0 recC1 none _ rfl,
   C1_amended_payload_fields.2 0 initLive tickC1 _ (by
     simp [on_update, initLive, tickC1, liveExchange, pyStrOr])⟩

/-! Claim C8 — records with missing or unrepresentable timestamps. -/

/-- A live tick with a missing time field but valid price and size. -/
def tickC8 : Tick :=
  { time := none, last := some 2, lastSize := some 3 }

/-- C8 counterexample: the live pipeline does not drop a tick whose timestamp
is missing — `on_update` substitutes the current wall clock (here 1234) and
emits the payload, refuting the claim for the live pipeline. -/
theorem C8_counterexample :
    (on_update 1234 initLive tickC8).emitted =
      [[("ts", Jval.vint 1234), ("price", Jval.vnum 2), ("size", Jval.vint 3),
        ("exchange", Jval.vstr "IBKR")]] := by
  simp [on_update, initLive, tickC8, liveExchange, pyStrOr]

/-- C8 amended: in the replay pipeline a record whose timestamp is missing or
unrepresentable is silently dropped — `handle_record` leaves the state
untouched and `build_payload` yields no payload; in the live pipeline a tick
with a missing time field is not dropped: its `ts` is taken from the current
wall clock and the payload is emitted (subject to the price/size and dedup
checks). -/
theorem C8_amended_ts_drop :
    (∀ (oracle : Oracle) (off : Int) (st : ReplayState) (rec : RawRecord),
      normalize_ts off rec.ts_event = none → handle_record oracle off st rec = st) ∧
    (∀ (off : Int) (rec : RawRecord) (ovr : Option String),
      normalize_ts off rec.ts_event = none → build_payload off rec ovr = none) ∧
    (∀ (now : Int) (st : LiveState) (t : Tick) (price : ℚ) (size : Int),
      t.time = none → t.last = some price → t.lastSize = some size →
      st.lastKey ≠ some (now, price, size) →
      (on_update now st t).emitted = st.emitted ++
        [[("ts", .vint now), ("price", .vnum price), ("size", .vint size),
          ("exchange", .vstr (liveExchange t))]]) := by
  refine ⟨?_, ?_, ?_⟩
  · intro oracle off st rec h
    rw [handle_record, h]
  · intro off rec ovr h
    cases hts : rec.ts_event with
    | none => rw [build_payload, hts]
    | some tsv =>
      rw [hts] at h
      rw [build_payload, hts]
      dsimp only
      cases hpr : rec.price with
      | none => rfl
      | some price =>
        cases hsz : rec.size with
        | none => rfl
        | some size =>
          cases hsym : (if strTruthy ovr then ovr.map SymVal.s
              else pyOr rec.symbol (pyOr rec.raw_symbol rec.instrument_id)) with
          | none => rfl
          | some sym => rw [h]
  · intro now st t price size htime hl hs hk
    rw [on_update, hl, hs]
    dsimp only
    rw [htime]
    dsimp only
    rw [if_neg hk]

/-- A replay record carrying an unparseable timestamp value. -/
def recC8a : RawRecord :=
  { ts_event := some (.strv "bogus") }

/-- A replay record with no timestamp but every other required attribute. -/
def recC8b : RawRecord :=
  { ts_event := none, price := some 1, size := some 1, symbol := some (.s "X") }

/-- Witness for C8: a concrete unparseable replay timestamp, a concrete
missing replay timestamp, and a concrete missing live timestamp. -/
theorem C8_witness :
    handle_record (fun _ _ => none) 0 initReplay recC8a = initReplay ∧
    build_payload 0 recC8b none = none ∧
    (on_update 99 initLive tickC8).emitted = initLive.emitted ++
      [[("ts", Jval.vint 99), ("price", Jval.vnum 2), ("size", Jval.vint 3),
        ("exchange", Jval.vstr (liveExchange tickC8))]] :=
  ⟨C8_amended_ts_drop.1 (fun _ _ => none) 0 initReplay _ rfl,
   C8_amended_ts_drop.2.1 0 _ none rfl,
   C8_amended_ts_drop.2.2 99 initLive tickC8 2 3 rfl rfl rfl (by rw [initLive]; simp)⟩

/-! Claim C5 — the end-of-stream forced flush. -/

theorem flushScan_force_rem (off : Int) (r : Resolver)
    (l : List (RawRecord × Int × Int)) : (flushScan off true r l).1 = [] := by
  induction l with
  | nil => rfl
  | cons e rest ih =>
    rw [flushScan]
    cases h : lookupTruthy r e.2.1 e.2.2 with
    | some m => simpa [h] using ih
    | none => simpa [h] using ih

theorem flushScan_force_mem (off : Int) (r : Resolver)
    (l : List (RawRecord × Int × Int)) (e : RawRecord × Int × Int) (p : Payload)
    (he : e ∈ l) (hl : lookupTruthy r e.2.1 e.2.2 = none)
    (hb : build_payload off e.1 (some (toString e.2.1)) = some p) :
    p ∈ (flushScan off true r l).2 := by
  induction l with
  | nil => simp at he
  | cons a rest ih =>
    rw [flushScan]
    rcases List.mem_cons.mp he with rfl | hmem
    · simp [hl, hb, emitOpt]
    · cases h : lookupTruthy r a.2.1 a.2.2 with
      | some m =>
        dsimp only
        exact List.mem_append_right _ (ih hmem)
      | none =>
        dsimp only
        exact List.mem_append_right _ (ih hmem)

/-- When `build_payload` is called with a truthy symbol override, the emitted
payload's `symbol` field is exactly that override string. -/
theorem build_payload_symbol_field (off : Int) (rec : RawRecord) (s : String)
    (p : Payload) (hs : s ≠ "") (h : build_payload off rec (some s) = some p) :
    getField p "symbol" = some (.vstr s) := by
  have hst : strTruthy (some s) = true := by simp [strTruthy, hs]
  have hsym : (if strTruthy (some s) = true then Option.map SymVal.s (some s)
      else pyOr rec.symbol (pyOr rec.raw_symbol rec.instrument_id)) =
      some (SymVal.s s) := by
    simp [hst]
  cases hts : rec.ts_event with
  | none => rw [build_payload, hts] at h; simp at h
  | some tsv =>
    cases hpr : rec.price with
    | none => rw [build_payload, hts, hpr] at h; simp at h
    | some price =>
      cases hsz : rec.size with
      | none => rw [build_payload, hts, hpr, hsz] at h; simp at h
      | some size =>
        cases hn : normalize_ts off (some tsv) with
        | none =>
          rw [build_payload, hts, hpr, hsz] at h
          dsimp only at h
          rw [hsym] at h
          dsimp only at h
          rw [hn] at h
          simp at h
        | some ts_ms =>
          rw [build_payload, hts, hpr, hsz] at h
          dsimp only at h
          rw [hsym] at h
          dsimp only at h
          rw [hn] at h
          dsimp only at h
          simp only [Option.some.injEq] at h
          subst h
          cases hex : pyOr rec.exchange (pyOr rec.publisher_id rec.exchange_id) with
          | none =>
            cases hcw : (match pyOrCond rec.conditions rec.condition with
                | some (CondVal.cs s2) => some (CondVal.cl [s2])
                | x => x) with
            | none => simp [hex, hcw, getField, stringify]
            | some cv =>
              cases cv with
              | cs s2 => simp [hex, hcw, getField, stringify]
              | cl l => by_cases hl2 : l.isEmpty <;> simp [hex, hcw, hl2, getField, stringify]
          | some e =>
            cases hcw : (match pyOrCond rec.conditions rec.condition with
                | some (CondVal.cs s2) => some (CondVal.cl [s2])
                | x => x) with
            | none => simp [hex, hcw, getField, stringify]
            | some cv =>
              cases cv with
              | cs s2 => simp [hex, hcw, getField, stringify]
              | cl l => by_cases hl2 : l.isEmpty <;> simp [hex, hcw, hl2, getField, stringify]

/-- C5: after the end-of-stream `flush_buffer(force=True)` the pending buffer
is empty, and every buffered entry still unresolved after that flush's
`resolve_pending` is emitted (when its other required fields are present)
with its symbol field equal to the stringified instrument id. -/
theorem C5_forced_flush (oracle : Oracle) (off : Int) (st : ReplayState) :
    (flush_buffer oracle off true st).buffered = [] ∧
    ∀ e ∈ st.buffered,
      lookupTruthy (st.resolver.resolve_pending oracle) e.2.1 e.2.2 = none →
      ∀ p, build_payload off e.1 (some (toString e.2.1)) = some p →
        p ∈ (flush_buffer oracle off true st).emitted ∧
        getField p "symbol" = some (.vstr (toString e.2.1)) := by
  constructor
  · rw [flush_buffer]
    split
    · rename_i hemp
      simpa using hemp
    · exact flushScan_force_rem off (st.resolver.resolve_pending oracle) st.buffered
  · intro e he hl p hb
    refine ⟨?_, build_payload_symbol_field off e.1 (toString e.2.1) p
      (intToString_ne e.2.1) hb⟩
    rw [flush_buffer]
    split
    · rename_i hemp
      rw [List.isEmpty_iff] at hemp
      rw [hemp] at he
      simp at he
    · exact List.mem_append_right _
        (flushScan_force_mem off (st.resolver.resolve_pending oracle) st.buffered e p he hl hb)

/-- A buffered replay record whose instrument id 42 never resolves. -/
def recC5 : RawRecord :=
  { ts_event := some (.num 5000), price := some 3, size := some 7,
    symbol := some (.s "42") }

/-- A replay state holding one unresolved buffered entry for the C5 witness. -/
def stC5 : ReplayState :=
  { resolver := initResolver, buffered := [(recC5, 42, 0)], emitted := [], flushes := 0 }

/-- Witness for C5: flushing the one-entry state empties the buffer and emits
the fallback payload whose symbol is "42". -/
theorem C5_witness :
    (flush_buffer (fun _ _ => none) 0 true stC5).buffered = [] ∧
    [("ts", Jval.vint 5000), ("price", Jval.vnum 3), ("size", Jval.vint 7),
      ("symbol", Jval.vstr "42")] ∈ (flush_buffer (fun _ _ => none) 0 true stC5).emitted ∧
    getField [("ts", Jval.vint 5000), ("price", Jval.vnum 3), ("size", Jval.vint 7),
      ("symbol", Jval.vstr "42")] "symbol" = some (.vstr "42") := by
  refine ⟨(C5_forced_flush (fun _ _ => none) 0 stC5).1, ?_⟩
  have := (C5_forced_flush (fun _ _ => none) 0 stC5).2 (recC5, 42, 0)
    (by simp [stC5]) rfl
    [("ts", Jval.vint 5000), ("price", Jval.vnum 3), ("size", Jval.vint 7),
      ("symbol", Jval.vstr "42")] rfl
  exact this

/-! Claim C4 — flush triggers on the two consumption paths. -/

/-- A replay record whose only symbol-like attribute is the numeric
instrument id 7 and whose timestamp is a fixed epoch-millisecond value, so
that it is buffered (never resolvable under `oracleNone`). -/
def rec7 : RawRecord :=
  { ts_event := some (.num 1700000000000), price := some 1, size := some 1,
    instrument_id := some (.i 7) }

/-- A symbology service that resolves nothing. -/
def oracleNone : Oracle := fun _ _ => none

/-- The resolver state after id 7 has been queued once and nothing resolved. -/
def rsv7 : Resolver :=
  { pending := [7], pendingSet := insert 7 ∅, rmap := fun _ _ => none }

/-- The buffered entry `handle_record` appends for `rec7`
(trade date 19675 = 1700000000000 ms / 1000 / 86400 days). -/
def entry7 : RawRecord × Int × Int := (rec7, 7, 19675)

theorem handle_rec7_step (buf : List (RawRecord × Int × Int)) (em : List Payload)
    (fl : Nat) :
    handle_record oracleNone 0 ⟨rsv7, buf, em, fl⟩ rec7 =
      ⟨rsv7, buf ++ [entry7], em, fl⟩ := by
  have hdate : (1700000000000 : Int) / 1000 / 86400 = 19675 := by decide
  simp [handle_record, rec7, rsv7, entry7, oracleNone, pyOr, symTruthy, normalize_ts,
    is_numeric_symbol, symToInt, lookupTruthy, Resolver.lookup, Resolver.queue,
    Resolver.pending_count, hdate]

theorem handle_rec7_init :
    handle_record oracleNone 0 initReplay rec7 = ⟨rsv7, [entry7], [], 0⟩ := by
  have hdate : (1700000000000 : Int) / 1000 / 86400 = 19675 := by decide
  simp [handle_record, rec7, rsv7, entry7, oracleNone, initReplay, initResolver, pyOr,
    symTruthy, normalize_ts, is_numeric_symbol, symToInt, lookupTruthy, Resolver.lookup,
    Resolver.queue, Resolver.pending_count, hdate]

theorem callbackDrive_rec7 (n : Nat) (buf : List (RawRecord × Int × Int))
    (em : List Payload) (fl : Nat) :
    callbackDrive oracleNone 0 ⟨rsv7, buf, em, fl⟩ (List.replicate n rec7) =
      ⟨rsv7, buf ++ List.replicate n entry7, em, fl⟩ := by
  induction n generalizing buf with
  | zero => simp [callbackDrive]
  | succ k ih =>
    rw [List.replicate_succ]
    show List.foldl (handle_record oracleNone 0) ⟨rsv7, buf, em, fl⟩
      (rec7 :: List.replicate k rec7) = _
    rw [List.foldl_cons, handle_rec7_step]
    have h2 := ih (buf ++ [entry7])
    rw [callbackDrive] at h2
    rw [h2]
    simp [List.replicate_succ]

theorem iterStep_rec7_small (buf : List (RawRecord × Int × Int)) (em : List Payload)
    (fl : Nat) (h : buf.length + 1 < 2000) :
    iterStep oracleNone 0 ⟨rsv7, buf, em, fl⟩ rec7 = ⟨rsv7, buf ++ [entry7], em, fl⟩ := by
  rw [iterStep, handle_rec7_step]
  dsimp only
  rw [if_neg]
  simp only [List.length_append, List.length_cons, List.length_nil]
  omega

theorem iterDrive_rec7_small (n : Nat) (buf : List (RawRecord × Int × Int))
    (em : List Payload) (fl : Nat) (h : buf.length + n < 2000) :
    iterDrive oracleNone 0 ⟨rsv7, buf, em, fl⟩ (List.replicate n rec7) =
      ⟨rsv7, buf ++ List.replicate n entry7, em, fl⟩ := by
  induction n generalizing buf with
  | zero => simp [iterDrive]
  | succ k ih =>
    rw [List.replicate_succ]
    show List.foldl (iterStep oracleNone 0) ⟨rsv7, buf, em, fl⟩
      (rec7 :: List.replicate k rec7) = _
    rw [List.foldl_cons, iterStep_rec7_small buf em fl (by omega)]
    have h2 := ih (buf ++ [entry7]) (by simp; omega)
    rw [iterDrive] at h2
    rw [h2]
    simp [List.replicate_succ]

theorem flush_pending_lt (oracle : Oracle) (off : Int) (force : Bool) (st : ReplayState)
    (h : st.resolver.pending_count < 200) :
    (flush_buffer oracle off force st).resolver.pending_count < 200 := by
  rw [flush_buffer]
  split
  · exact h
  · show (st.resolver.resolve_pending oracle).pending.length < 200
    rw [resolve_pending_pending]
    simp

theorem handle_pending_lt (oracle : Oracle) (off : Int) (st : ReplayState)
    (rec : RawRecord) (h : st.resolver.pending_count < 200) :
    (handle_record oracle off st rec).resolver.pending_count < 200 := by
  rw [handle_record]
  cases hn : normalize_ts off rec.ts_event with
  | none => exact h
  | some ts_ms =>
    dsimp only
    by_cases hnum : is_numeric_symbol (pyOr rec.symbol (pyOr rec.raw_symbol rec.instrument_id))
    · rw [if_pos hnum]
      cases hl : lookupTruthy st.resolver
          (symToInt (pyOr rec.symbol (pyOr rec.raw_symbol rec.instrument_id)))
          (ts_ms / 1000 / 86400) with
      | some mapped => exact h
      | none =>
        dsimp only
        split
        · rw [flush_buffer]
          rw [if_neg (by simp)]
          show (Resolver.resolve_pending oracle _).pending.length < 200
          rw [resolve_pending_pending]
          simp
        · rename_i h200
          show (st.resolver.queue _).pending_count < 200
          omega
    · rw [if_neg hnum]
      exact h

theorem callbackDrive_pending_lt (oracle : Oracle) (off : Int) :
    ∀ (recs : List RawRecord) (st : ReplayState),
      st.resolver.pending_count < 200 →
      (callbackDrive oracle off st recs).resolver.pending_count < 200 := by
  intro recs
  induction recs with
  | nil => intro st h; exact h
  | cons r rest ih =>
    intro st h
    show (List.foldl (handle_record oracle off) (handle_record oracle off st r)
      rest).resolver.pending_count < 200
    exact ih (handle_record oracle off st r) (handle_pending_lt oracle off st r h)

theorem iterStep_pending_lt (oracle : Oracle) (off : Int) (st : ReplayState)
    (rec : RawRecord) (h : st.resolver.pending_count < 200) :
    (iterStep oracle off st rec).resolver.pending_count < 200 := by
  rw [iterStep]
  split
  · exact flush_pending_lt oracle off false _ (handle_pending_lt oracle off st rec h)
  · exact handle_pending_lt oracle off st rec h

theorem iterDrive_pending_lt (oracle : Oracle) (off : Int) :
    ∀ (recs : List RawRecord) (st : ReplayState),
      st.resolver.pending_count < 200 →
      (iterDrive oracle off st recs).resolver.pending_count < 200 := by
  intro recs
  induction recs with
  | nil => intro st h; exact h
  | cons r rest ih =>
    intro st h
    show (List.foldl (iterStep oracle off) (iterStep oracle off st r)
      rest).resolver.pending_count < 200
    exact ih (iterStep oracle off st r) (iterStep_pending_lt oracle off st r h)

theorem handle_flushes_le (oracle : Oracle) (off : Int) (st : ReplayState)
    (rec : RawRecord) : st.flushes ≤ (handle_record oracle off st rec).flushes := by
  rw [handle_record]
  cases hn : normalize_ts off rec.ts_event with
  | none => exact Nat.le_refl _
  | some ts_ms =>
    dsimp only
    split
    · split
      · exact Nat.le_refl _
      · split
        · rw [flush_buffer_flushes]
          exact Nat.le_succ _
        · exact Nat.le_refl _
    · exact Nat.le_refl _

theorem iterStep_flushes_le (oracle : Oracle) (off : Int) (st : ReplayState)
    (rec : RawRecord) : st.flushes ≤ (iterStep oracle off st rec).flushes := by
  rw [iterStep]
  split
  · rw [flush_buffer_flushes]
    have := handle_flushes_le oracle off st rec
    omega
  · exact handle_flushes_le oracle off st rec

theorem iterDrive_flushes_le (oracle : Oracle) (off : Int) :
    ∀ (recs : List RawRecord) (st : ReplayState),
      st.flushes ≤ (iterDrive oracle off st recs).flushes := by
  intro recs
  induction recs with
  | nil => intro st; exact Nat.le_refl _
  | cons r rest ih =>
    intro st
    calc st.flushes ≤ (iterStep oracle off st r).flushes :=
          iterStep_flushes_le oracle off st r
      _ ≤ _ := ih (iterStep oracle off st r)

theorem iterDrive_append (oracle : Oracle) (off : Int) (st : ReplayState)
    (l1 l2 : List RawRecord) :
    iterDrive oracle off st (l1 ++ l2) =
      iterDrive oracle off (iterDrive oracle off st l1) l2 := by
  simp [iterDrive, List.foldl_append]

theorem iterDrive_cons (oracle : Oracle) (off : Int) (st : ReplayState)
    (r : RawRecord) (l : List RawRecord) :
    iterDrive oracle off st (r :: l) = iterDrive oracle off (iterStep oracle off st r) l :=
  rfl

theorem iterDrive_nil (oracle : Oracle) (off : Int) (st : ReplayState) :
    iterDrive oracle off st [] = st :=
  rfl

theorem iterDrive_rec7_2000 :
    (iterDrive oracleNone 0 initReplay (List.replicate 2000 rec7)).flushes = 1 := by
  have hstep0 : iterStep oracleNone 0 initReplay rec7 = ⟨rsv7, [entry7], [], 0⟩ := by
    rw [iterStep, handle_rec7_init]
    rw [if_neg (by simp)]
  have h1 : iterDrive oracleNone 0 initReplay (rec7 :: List.replicate 1998 rec7) =
      ⟨rsv7, [entry7] ++ List.replicate 1998 entry7, [], 0⟩ := by
    rw [iterDrive_cons, hstep0]
    exact iterDrive_rec7_small 1998 [entry7] [] 0 (by simp)
  have h2 : (iterDrive oracleNone 0 initReplay
        ((rec7 :: List.replicate 1998 rec7) ++ [rec7])).flushes =
      (iterDrive oracleNone 0
        (iterDrive oracleNone 0 initReplay (rec7 :: List.replicate 1998 rec7))
        [rec7]).flushes := by
    rw [iterDrive_append]
  have h3 := congrArg (fun s => (iterDrive oracleNone 0 s [rec7]).flushes) h1
  have h4 : (iterDrive oracleNone 0
      (⟨rsv7, [entry7] ++ List.replicate 1998 entry7, [], 0⟩ : ReplayState)
      [rec7]).flushes = 1 := by
    rw [iterDrive_cons, iterDrive_nil]
    rw [iterStep, handle_rec7_step]
    have hc : (2000 : Nat) ≤ (([entry7] ++ List.replicate 1998 entry7) ++ [entry7]).length := by
      simp only [List.length_append, List.length_replicate, List.length_cons,
        List.length_nil]
      omega
    rw [if_pos hc]
    rw [flush_buffer_flushes]
  have h0 : List.replicate 2000 rec7 = (rec7 :: List.replicate 1998 rec7) ++ [rec7] := by
    rw [show (2000 : Nat) = 1999 + 1 from rfl, List.replicate_add]
    rw [show (1999 : Nat) = 1998 + 1 from rfl, List.replicate_succ]
    rfl
  rw [h0]
  exact h2.trans (h3.trans h4)

theorem callbackDrive_cons (oracle : Oracle) (off : Int) (st : ReplayState)
    (r : RawRecord) (l : List RawRecord) :
    callbackDrive oracle off st (r :: l) =
      callbackDrive oracle off (handle_record oracle off st r) l :=
  rfl

/-- C4 counterexample: on the callback-replay path, 2000 consecutive records
sharing the unresolvable numeric instrument id 7 drive the buffer to 2000
entries while the flush logic is never invoked — the buffered-record-2000
trigger does not exist on that path, refuting the claim that it holds on
every input-consumption path. -/
theorem C4_counterexample :
    (callbackDrive oracleNone 0 initReplay (List.replicate 2000 rec7)).buffered.length =
      2000 ∧
    (callbackDrive oracleNone 0 initReplay (List.replicate 2000 rec7)).flushes = 0 := by
  have h0 : List.replicate 2000 rec7 = rec7 :: List.replicate 1999 rec7 := by
    rw [show (2000 : Nat) = 1999 + 1 from rfl, List.replicate_succ]
  have h1 : callbackDrive oracleNone 0 initReplay (List.replicate 2000 rec7) =
      ⟨rsv7, [entry7] ++ List.replicate 1999 entry7, [], 0⟩ := by
    rw [h0, callbackDrive_cons, handle_rec7_init]
    exact callbackDrive_rec7 1999 [entry7] [] 0
  rw [h1]
  constructor
  · simp only [List.length_append, List.length_replicate, List.length_cons,
      List.length_nil]
  · rfl

/-- C4 amended: flush logic runs unconditionally at end of stream on both
consumption paths, and the pending-identifier trigger fires at 200 on both
paths (so the pending count never reaches 200 after a record is consumed);
but the buffered-record-2000 trigger exists only on the iterator path: on the
callback path the buffer can reach any size with no flush at all, while the
iterator path flushes once the buffer holds 2000 records. -/
theorem C4_amended_flush_triggers :
    (∀ (oracle : Oracle) (off : Int) (recs : List RawRecord),
      (replayCallback oracle off recs).flushes =
        (callbackDrive oracle off initReplay recs).flushes + 1) ∧
    (∀ (oracle : Oracle) (off : Int) (recs : List RawRecord),
      (replayIter oracle off recs).flushes =
        (iterDrive oracle off initReplay recs).flushes + 1) ∧
    (∀ (oracle : Oracle) (off : Int) (recs : List RawRecord),
      (callbackDrive oracle off initReplay recs).resolver.pending_count < 200) ∧
    (∀ (oracle : Oracle) (off : Int) (recs : List RawRecord),
      (iterDrive oracle off initReplay recs).resolver.pending_count < 200) ∧
    (∀ n : Nat,
      (callbackDrive oracleNone 0 initReplay (List.replicate n rec7)).flushes = 0) ∧
    (∀ n : Nat, 2000 ≤ n →
      1 ≤ (iterDrive oracleNone 0 initReplay (List.replicate n rec7)).flushes) := by
  refine ⟨?_, ?_, ?_, ?_, ?_, ?_⟩
  · intro oracle off recs
    exact flush_buffer_flushes oracle off true _
  · intro oracle off recs
    exact flush_buffer_flushes oracle off true _
  · intro oracle off recs
    exact callbackDrive_pending_lt oracle off recs initReplay (by decide)
  · intro oracle off recs
    exact iterDrive_pending_lt oracle off recs initReplay (by decide)
  · intro n
    cases n with
    | zero => rfl
    | succ k =>
      rw [List.replicate_succ, callbackDrive_cons, handle_rec7_init]
      rw [callbackDrive_rec7 k [entry7] [] 0]
  · intro n hn
    have hn2 : 2000 + (n - 2000) = n := by omega
    have hsplit : List.replicate n rec7 =
        List.replicate 2000 rec7 ++ List.replicate (n - 2000) rec7 := by
      rw [← List.replicate_add, hn2]
    rw [hsplit, iterDrive_append]
    calc 1 = (iterDrive oracleNone 0 initReplay (List.replicate 2000 rec7)).flushes :=
          iterDrive_rec7_2000.symm
      _ ≤ _ := iterDrive_flushes_le oracleNone 0 _ _

/-- Witness for C4 at the iterator path's threshold input of 2000 records. -/
theorem C4_witness :
    (2000 : Nat) ≤ 2000 ∧
    1 ≤ (iterDrive oracleNone 0 initReplay (List.replicate 2000 rec7)).flushes :=
  ⟨Nat.le_refl 2000, C4_amended_flush_triggers.2.2.2.2.2 2000 (Nat.le_refl 2000)⟩
